import Mathlib

/-!
Verification of the peer-IP enrichment module
(`opentelemetry-util-http`, `src/opentelemetry/util/http/httplib.py`).

The module enriches HTTP client spans with the remote peer's IP address:
a registration scope (`set_ip_on_next_http_connection`) records spans in a
per-call-path `ConnectionState` carried in ambient context, and a capture
trigger (`trysetip`) hooked onto the transport's `connect`/`send` methods
reads the connected socket's peer address and stamps it on every
still-recording span in the list.

The embedding below is shallow and executable:
  * Python spans are reference objects; we model them as `SpanId`s owned by
    a `World : SpanId -> SpanData` map, so that attribute mutation does not
    change a span's identity in lists.
  * The in-place mutation of the shared span list and of the ambient
    context value is modelled by explicit state passing.
  * Fallible external calls (`conn.sock` property access, `getpeername`)
    are modelled with `Except Unit`; a raised-and-propagated Python
    exception surfaces as `Except.error` in `TryResult.ret`.
  * Log calls and socket-property accesses are recorded as observable
    events (`LogEvent`, `sockAccessed`) so that "logs once" / "without
    touching the connection" statements are expressible.
-/

namespace Httplib

/-- The semantic-convention attribute key `NET_PEER_IP` (net.peer.ip). -/
def NET_PEER_IP : String := "net.peer.ip"

/-- Python `logging.DEBUG`. -/
def DEBUG : Nat := 10

/-- Python `logging.WARNING`. -/
def WARNING : Nat := 30

/-- A span reference: spans are external objects held by reference, so we
identify them by an id and keep their mutable payload in a `World`. -/
abbrev SpanId := Nat

/-- The mutable payload of a span: its recording flag and its attributes
(most recently set entry first). -/
structure SpanData where
  recording : Bool
  attrs : List (String × String)
deriving DecidableEq

/-- The span heap: payload of every span reference. -/
abbrev World := SpanId → SpanData

/-- `span.is_recording()`. -/
def is_recording (w : World) (s : SpanId) : Bool :=
  (w s).recording

/-- `span.set_attribute(key, value)`: prepends the new entry for `s`;
lookups take the most recent entry for a key. -/
def set_attribute (w : World) (s : SpanId) (k v : String) : World :=
  fun t => if t = s then ⟨(w t).recording, (k, v) :: (w t).attrs⟩ else w t

/-- `span.attributes.get(key)`: most recently set value for `k` on `s`. -/
def get_attribute (w : World) (s : SpanId) (k : String) : Option String :=
  ((w s).attrs.find? (fun p => p.1 == k)).map (fun p => p.2)

/-- The `_ConnectionState` TypedDict: `{"need_ip": list of spans}`. -/
structure ConnectionState where
  need_ip : List SpanId
deriving DecidableEq

/-!
The dead-span sweep `_remove_nonrecording` (httplib.py lines 58-73).

Python:
```
idx = len(spanlist) - 1
while idx >= 0:
    if not spanlist[idx].is_recording():
        islast = idx + 1 == len(spanlist)
        if not islast:
            spanlist[idx] = spanlist[len(spanlist) - 1]
        spanlist.pop()
        if islast:
            if idx == 0:
                return False  # We removed everything
            idx -= 1
    else:
        idx -= 1
return True
```

We embed the loop with the counter `n = idx + 1` (so the `while idx >= 0`
exit is the structural case `n = 0`), and a fuel argument that makes the
function structurally recursive; `sweepAux` supplies the fuel `n + len`,
which is exactly the loop measure and provably suffices
(`sweepFuel_irrel`), and `sweep_step_sim` below shows `sweepAux` follows
the one-iteration step function `sweepStep` of the loop exactly.
The `logger.debug("Span is not recording: ...")` call on the dropped span
is not modelled (no claim observes it).
-/

/-- Fuel-indexed body of the `_remove_nonrecording` loop. The third
argument is `n = idx + 1`; inside the `m + 1` case, `m` is the Python
`idx`. The fuel-exhausted result is never reached for
`fuel ≥ n + l.length` (see `sweepFuel_irrel`). -/
def sweepFuel (w : World) (fuel : Nat) (l : List SpanId) (n : Nat) :
    List SpanId × Bool :=
  match n with
  | 0 => (l, true)
  | m + 1 =>
    match fuel with
    | 0 => (l, true)
    | f + 1 =>
      match l[m]? with
      | none => (l, true)
      | some s =>
        if is_recording w s then
          sweepFuel w f l m
        else
          if m + 1 = l.length then
            if m = 0 then (l.dropLast, false)
            else sweepFuel w f l.dropLast m
          else
            sweepFuel w f ((l.set m (l.getLast?.getD s)).dropLast) (m + 1)

/-- The `_remove_nonrecording` loop entered at counter `n` (Python
`idx = n - 1`), with the exactly-sufficient fuel. -/
def sweepAux (w : World) (l : List SpanId) (n : Nat) : List SpanId × Bool :=
  sweepFuel w (n + l.length) l n

/-- `_remove_nonrecording(spanlist)`: in-place unordered removal of all
non-recording spans; returns `false` iff it emptied a (non-empty) list.
The result pair is (final list contents, return value). -/
def _remove_nonrecording (w : World) (l : List SpanId) : List SpanId × Bool :=
  sweepAux w l l.length

/-- One iteration of the `_remove_nonrecording` loop as a step function on
configurations, for stating termination: `running l n` is the loop with
counter `n = idx + 1`; `done l b` is a `return b` with final list `l`. -/
inductive SweepConfig where
  | running (l : List SpanId) (n : Nat)
  | done (l : List SpanId) (b : Bool)
deriving DecidableEq

/-- The loop body of `_remove_nonrecording` as a single step. -/
def sweepStep (w : World) : SweepConfig → SweepConfig
  | .done l b => .done l b
  | .running l 0 => .done l true
  | .running l (m + 1) =>
    match l[m]? with
    | none => .done l true
    | some s =>
      if is_recording w s then .running l m
      else
        if m + 1 = l.length then
          if m = 0 then .done l.dropLast false
          else .running l.dropLast m
        else .running ((l.set m (l.getLast?.getD s)).dropLast) (m + 1)

/-- The loop measure: `idx + len(spanlist)` shifted by the constant 2
(the counter is `idx + 1` and running configurations are strictly above
finished ones). -/
def sweepMeasure : SweepConfig → Nat
  | .running l n => n + l.length + 1
  | .done _ _ => 0

/-- The actual socket: `getpeername()` either returns an address tuple
(modelled as the list of its textual components, IP first) or raises. -/
structure Socket where
  getpeername : Except Unit (List String)

/-- The `http.client.HTTPConnection` as seen by this module: reading the
`sock` property yields `None`, a live socket, or raises. -/
structure Conn where
  sock : Except Unit (Option Socket)

/-- Observable log calls made by `trysetip`. -/
inductive LogEvent where
  | debugGotSocket
  | failedGetPeer (level : Nat)
deriving DecidableEq

/-- Observable outcome of one `trysetip` call: the span heap and the
ambient `ConnectionState` after the call, the log lines emitted, whether
`conn.sock` was read, and the returned boolean — or `Except.error` if the
call raised an exception to its caller. -/
structure TryResult where
  world : World
  state : Option ConnectionState
  logs : List LogEvent
  sockAccessed : Bool
  ret : Except Unit Bool

/-- The `for span in spanlist: span.set_attribute(NET_PEER_IP, ip)` loop,
where `ip` is the possibly-unbound local variable of `trysetip`
(`none` = never assigned): on a non-empty list the first access of an
unbound `ip` raises (Python `UnboundLocalError`). -/
def stampAll (ip? : Option String) (w : World) : List SpanId → Except Unit World
  | [] => .ok w
  | s :: rest =>
    match ip? with
    | none => .error ()
    | some ip => stampAll ip? (set_attribute w s NET_PEER_IP ip) rest

/-- `trysetip(conn, loglevel)` (httplib.py lines 76-117), with the ambient
state (`_getstate()` result) and the span heap passed explicitly. -/
def trysetip (conn : Conn) (loglevel : Nat) (w : World)
    (state : Option ConnectionState) : TryResult :=
  match state with
  | none => ⟨w, none, [], false, .ok true⟩   -- `if not state: return True`
  | some st =>
    if st.need_ip.isEmpty then               -- `if not spanlist: return True`
      ⟨w, some st, [], false, .ok true⟩
    else
      match _remove_nonrecording w st.need_ip with
      | (l1, false) =>                       -- sweep emptied the list
        ⟨w, some ⟨l1⟩, [], false, .ok true⟩
      | (l1, true) =>
        match conn.sock with
        | .error _ =>                        -- reading `conn.sock` raised
          ⟨w, some ⟨l1⟩, [.failedGetPeer loglevel], true, .ok true⟩
        | .ok none =>                        -- not yet connected
          ⟨w, some ⟨l1⟩, [.debugGotSocket], true, .ok false⟩
        | .ok (some sock) =>
          match sock.getpeername with
          | .error _ =>                      -- `getpeername()` raised
            ⟨w, some ⟨l1⟩, [.debugGotSocket, .failedGetPeer loglevel], true,
              .ok true⟩
          | .ok addr =>
            -- `if addr and addr[0]: ip = addr[0]` — otherwise `ip` stays unbound
            let ip? : Option String :=
              if addr ≠ [] ∧ addr.headD "" ≠ "" then some (addr.headD "")
              else none
            match stampAll ip? w l1 with
            | .ok w2 => ⟨w2, some ⟨l1⟩, [.debugGotSocket], true, .ok true⟩
            | .error _ =>                    -- UnboundLocalError propagates
              ⟨w, some ⟨l1⟩, [.debugGotSocket], true, .error ()⟩

/-- The span heap after the stamping loop ran with a bound `ip` over the
list `l` (the functional form of a successful `stampAll`). -/
def stampWorld (w : World) (ip : String) (l : List SpanId) : World :=
  l.foldl (fun acc s => set_attribute acc s NET_PEER_IP ip) w

/-- The ambient propagated context restricted to the one key this module
uses (`_STATE_KEY`): either no `ConnectionState` is installed or one is. -/
abbrev Ctx := Option ConnectionState

/-- Python `list.remove(x)`: drop the first occurrence of `x`; the
`ValueError` raised when `x` is absent is caught and ignored by the scope
(`except ValueError: pass`), so absence leaves the list unchanged. -/
def removeFirst : List SpanId → SpanId → List SpanId
  | [], _ => []
  | x :: xs, s => if x = s then xs else x :: removeFirst xs s

/-- The registration scope `set_ip_on_next_http_connection(span)`
(httplib.py lines 172-192). `body` is the net mutation the wrapped code
performs on the shared `need_ip` list while the scope is open (appends by
nested scopes, sweep evictions by `trysetip`); the scope's cleanup runs on
every exit path (`finally`), so the result context is the same whether the
body returned or raised.
  * No state in context: attach a fresh `{need_ip: [span]}`; on exit,
    detach restores the prior context (so the attached state, final list
    `body [span]`, becomes unreachable).
  * State present: append `span` to the shared list in place; on exit,
    remove `span` from the list, tolerating its absence. -/
def set_ip_on_next_http_connection (span : SpanId) (ctx : Ctx)
    (body : List SpanId → List SpanId) : Ctx :=
  match ctx with
  | none =>
    let _attached : Ctx := some ⟨body [span]⟩
    none
  | some st => some ⟨removeFirst (body (st.need_ip ++ [span])) span⟩

/-!
Interception wiring (httplib.py lines 120-161 and 195-197).

The interception mechanism (`wrapt.wrap_function_wrapper` /
`opentelemetry.instrumentation.utils.unwrap`) is an external collaborator:
a wrapper replaces a method slot with a closure that receives the original
(`wrapped`) and delegates to it, and `unwrap` restores the original from
the wrapper's `__wrapped__` attribute. We model a method slot as a stack
of wrappers over a base implementation, and give the wrappers' dynamics as
interpreters `runSend` / `runConnect` over an abstract real operation.
-/

/-- The `HTTPConnection.send` slot: the stdlib implementation, possibly
wrapped by `instrumented_send`. -/
inductive SendImpl where
  | base
  | instrumented (inner : SendImpl)
deriving DecidableEq

/-- The `HTTPConnection.connect` slot: the stdlib implementation, possibly
wrapped by `_instrumented_connect`. -/
inductive ConnectImpl where
  | base
  | instrumentedConnect (inner : ConnectImpl)
deriving DecidableEq

/-- The two method slots of `http.client.HTTPConnection` that this module
touches. -/
structure Table where
  send : SendImpl
  connect : ConnectImpl
deriving DecidableEq

/-- The pristine `http.client.HTTPConnection` method table. -/
def baseTable : Table := ⟨.base, .base⟩

/-- What the stdlib operation does: it may mutate the connection
(e.g. `send` lazily establishing the socket) and returns a result. -/
abbrev RealOp := Conn → Conn × Nat

/-- A system state threaded through the wrappers: the connection, the span
heap and the ambient `ConnectionState`. -/
structure SysState where
  conn : Conn
  world : World
  state : Option ConnectionState

/-- Fold a `trysetip` outcome back into the system state (its list/heap
mutations happen even when the call raises). -/
def applyTry (st : SysState) (t : TryResult) : SysState :=
  { st with world := t.world, state := t.state }

/-- Observable wrapper events, in execution order. -/
inductive Event where
  | tryset (level : Nat) (ret : Except Unit Bool)
  | realSend
  | realConnect

/-- Run the `send` slot: `.base` is the stdlib send; `.instrumented` is
`instrumented_send` (httplib.py lines 142-152): `done = trysetip(instance)`
at default DEBUG severity, then the wrapped send, then — only when `done`
is false — `trysetip(instance, loglevel=WARNING)`; the wrapped call's
result is returned. An exception from `trysetip` propagates (skipping the
rest), as there is no `try` around it. -/
def runSend (real : RealOp) :
    SendImpl → SysState → SysState × Except Unit Nat × List Event
  | .base, st =>
    ({ st with conn := (real st.conn).1 }, .ok (real st.conn).2, [.realSend])
  | .instrumented inner, st =>
    let t1 := trysetip st.conn DEBUG st.world st.state
    let st1 := applyTry st t1
    match t1.ret with
    | .error e => (st1, .error e, [.tryset DEBUG (.error e)])
    | .ok done =>
      let r := runSend real inner st1
      match r.2.1 with
      | .error e => (r.1, .error e, .tryset DEBUG (.ok done) :: r.2.2)
      | .ok v =>
        if done then (r.1, .ok v, .tryset DEBUG (.ok done) :: r.2.2)
        else
          let t2 := trysetip r.1.conn WARNING r.1.world r.1.state
          let st3 := applyTry r.1 t2
          match t2.ret with
          | .error e =>
            (st3, .error e,
              .tryset DEBUG (.ok done) :: r.2.2 ++ [.tryset WARNING (.error e)])
          | .ok b2 =>
            (st3, .ok v,
              .tryset DEBUG (.ok done) :: r.2.2 ++ [.tryset WARNING (.ok b2)])

/-- Run the `connect` slot: `.base` is the stdlib connect;
`.instrumentedConnect` is `_instrumented_connect` (httplib.py lines
120-128): the wrapped connect first, then
`trysetip(instance, loglevel=WARNING)`, returning the wrapped call's
result (the `trysetip` return value is ignored, but an exception from it
propagates). -/
def runConnect (real : RealOp) :
    ConnectImpl → SysState → SysState × Except Unit Nat × List Event
  | .base, st =>
    ({ st with conn := (real st.conn).1 }, .ok (real st.conn).2, [.realConnect])
  | .instrumentedConnect inner, st =>
    let r := runConnect real inner st
    match r.2.1 with
    | .error e => (r.1, .error e, r.2.2)
    | .ok v =>
      let t := trysetip r.1.conn WARNING r.1.world r.1.state
      let st2 := applyTry r.1 t
      match t.ret with
      | .error e => (st2, .error e, r.2.2 ++ [.tryset WARNING (.error e)])
      | .ok b => (st2, .ok v, r.2.2 ++ [.tryset WARNING (.ok b)])

/-- `instrument_connect(module, name="connect")`: wrap a connect slot with
`_instrumented_connect` (httplib.py lines 131-138). -/
def instrument_connect (c : ConnectImpl) : ConnectImpl :=
  .instrumentedConnect c

/-- `_instrument()` (httplib.py lines 141-160): wrap `send` with
`instrumented_send` and `connect` with `_instrumented_connect`. -/
def _instrument (t : Table) : Table :=
  ⟨.instrumented t.send, instrument_connect t.connect⟩

/-- Modelled from the spec: `unwrap` (from
`opentelemetry.instrumentation.utils`, not part of this source tree)
"removes exactly the wrappers install() added, restoring original
behavior" — it pops one wrapper layer from a slot, and leaves an
unwrapped slot unchanged. `send` slot version. -/
def unwrapSend : SendImpl → SendImpl
  | .base => .base
  | .instrumented inner => inner

/-- Modelled from the spec: `unwrap`, `connect` slot version (see
`unwrapSend`). -/
def unwrapConnect : ConnectImpl → ConnectImpl
  | .base => .base
  | .instrumentedConnect inner => inner

/-- `_uninstrument()` (httplib.py lines 195-197): unwrap `send` and
`connect` on `HTTPConnection`. -/
def _uninstrument (t : Table) : Table :=
  ⟨unwrapSend t.send, unwrapConnect t.connect⟩

/-- The system state right after the pre-send `trysetip` and the real send
ran (used to phrase when the post-send `trysetip` returns normally). -/
def postSendState (real : RealOp) (st : SysState) : SysState :=
  let st1 := applyTry st (trysetip st.conn DEBUG st.world st.state)
  { st1 with conn := (real st1.conn).1 }

/-!
Concrete fixtures for witnesses.
-/

/-- A concrete span heap: span `0` is recording, all others are not; no
attributes set. -/
def w0 : World := fun s => if s = 0 then ⟨true, []⟩ else ⟨false, []⟩

/-- A connected socket whose peer address is `("10.0.0.5", "443")`. -/
def sockOk : Socket := ⟨.ok ["10.0.0.5", "443"]⟩

/-- A connection with a connected socket. -/
def connOk : Conn := ⟨.ok (some sockOk)⟩

/-- A connection whose `sock` is still `None`. -/
def connNoSock : Conn := ⟨.ok none⟩

/-- A connection whose socket's `getpeername()` returns the falsy address
`("",)` (e.g. an unnamed `AF_UNIX` socket). -/
def connEmptyAddr : Conn := ⟨.ok (some ⟨.ok [""]⟩)⟩

/-- Unfolding of `sweepFuel` at counter `0` (loop exit `idx = -1`). -/
theorem sweepFuel_zero (w : World) (f : Nat) (l : List SpanId) :
    sweepFuel w f l 0 = (l, true) := by
  cases f <;> rfl

/-- Unfolding of `sweepFuel` at a positive counter with positive fuel. -/
theorem sweepFuel_succ (w : World) (f : Nat) (l : List SpanId) (m : Nat) :
    sweepFuel w (f + 1) l (m + 1) =
      match l[m]? with
      | none => (l, true)
      | some s =>
        if is_recording w s then sweepFuel w f l m
        else
          if m + 1 = l.length then
            if m = 0 then (l.dropLast, false)
            else sweepFuel w f l.dropLast m
          else sweepFuel w f ((l.set m (l.getLast?.getD s)).dropLast) (m + 1) :=
  rfl

/-- The fuel argument of `sweepFuel` is irrelevant as soon as it reaches
the loop measure `n + l.length`: the loop always terminates within that
many iterations. -/
theorem sweepFuel_irrel (w : World) :
    ∀ (k : Nat) (l : List SpanId) (n f₁ f₂ : Nat), n + l.length ≤ k →
      n + l.length ≤ f₁ → n + l.length ≤ f₂ →
      sweepFuel w f₁ l n = sweepFuel w f₂ l n := by
  intro k
  induction k using Nat.strong_induction_on with
  | _ k ih =>
    intro l n f₁ f₂ hk h₁ h₂
    match n with
    | 0 => rw [sweepFuel_zero, sweepFuel_zero]
    | m + 1 =>
      obtain ⟨a, rfl⟩ : ∃ a, f₁ = a + 1 := ⟨f₁ - 1, by omega⟩
      obtain ⟨b, rfl⟩ : ∃ b, f₂ = b + 1 := ⟨f₂ - 1, by omega⟩
      rw [sweepFuel_succ, sweepFuel_succ]
      cases hg : l[m]? with
          | none => rfl
          | some s =>
            have hm : m < l.length := by
              rcases List.getElem?_eq_some.mp hg with ⟨h, _⟩; exact h
            simp only
            by_cases hr : is_recording w s
            · simp only [hr, if_true]
              exact ih (k - 1) (by omega) l m a b (by omega) (by omega)
                (by omega)
            · simp only [hr, if_false, Bool.false_eq_true]
              by_cases hlast : m + 1 = l.length
              · simp only [hlast, if_true]
                by_cases hm0 : m = 0
                · simp [hm0]
                · simp only [hm0, if_false]
                  have hd : l.dropLast.length = l.length - 1 := by simp
                  exact ih (k - 1) (by omega) l.dropLast m a b (by omega)
                    (by omega) (by omega)
              · simp only [hlast, if_false]
                have hd : ((l.set m (l.getLast?.getD s)).dropLast).length =
                    l.length - 1 := by simp
                exact ih (k - 1) (by omega)
                  ((l.set m (l.getLast?.getD s)).dropLast) (m + 1) a b
                  (by omega) (by omega) (by omega)

/-- `sweepAux` follows the loop step `sweepStep` exactly: each unfolding of
`sweepAux` is one application of the loop body. -/
theorem sweepAux_step (w : World) (l : List SpanId) (n : Nat) :
    sweepAux w l n =
      match sweepStep w (.running l n) with
      | .running l' n' => sweepAux w l' n'
      | .done l' b => (l', b) := by
  match n with
  | 0 =>
    show sweepFuel w (0 + l.length) l 0 = _
    rw [sweepFuel_zero]; rfl
  | m + 1 =>
    show sweepFuel w (m + 1 + l.length) l (m + 1) = _
    have hfuel : m + 1 + l.length = (m + l.length) + 1 := by omega
    rw [hfuel, sweepFuel_succ]
    simp only [sweepStep]
    cases hg : l[m]? with
    | none => rfl
    | some s =>
      have hm : m < l.length := by
        rcases List.getElem?_eq_some.mp hg with ⟨h, _⟩; exact h
      simp only
      by_cases hr : is_recording w s
      · simp only [hr, if_true]
        exact sweepFuel_irrel w (m + l.length) l m (m + l.length)
          (m + l.length) (le_refl _) (le_refl _) (le_refl _)
      · simp only [hr, if_false, Bool.false_eq_true]
        by_cases hlast : m + 1 = l.length
        · simp only [hlast, if_true]
          by_cases hm0 : m = 0
          · simp [hm0]
          · simp only [hm0, if_false]
            have hd : l.dropLast.length = l.length - 1 := by simp
            exact sweepFuel_irrel w (m + l.length) l.dropLast m (m + l.length)
              (m + l.dropLast.length) (by omega) (by omega) (by omega)
        · simp only [hlast, if_false]
          have hd : ((l.set m (l.getLast?.getD s)).dropLast).length =
              l.length - 1 := by simp
          exact sweepFuel_irrel w (m + l.length)
            ((l.set m (l.getLast?.getD s)).dropLast) (m + 1) (m + l.length)
            (m + 1 + ((l.set m (l.getLast?.getD s)).dropLast).length)
            (by omega) (by omega) (by omega)

/-- `sweepAux` at counter `0`: the loop exits returning `True`. -/
theorem sweepAux_zero (w : World) (l : List SpanId) :
    sweepAux w l 0 = (l, true) := by
  show sweepFuel w (0 + l.length) l 0 = _
  rw [sweepFuel_zero]

/-- Loop equation: a recording span at `idx = m` just decrements `idx`. -/
theorem sweepAux_eq_rec (w : World) (l : List SpanId) (m : Nat) (s : SpanId)
    (hg : l[m]? = some s) (hr : is_recording w s = true) :
    sweepAux w l (m + 1) = sweepAux w l m := by
  rw [sweepAux_step]; simp [sweepStep, hg, hr]

/-- Loop equation: a non-recording last span at `idx = 0` is popped and the
loop returns `False` (we removed everything). -/
theorem sweepAux_eq_last_zero (w : World) (l : List SpanId) (s : SpanId)
    (hg : l[0]? = some s) (hr : is_recording w s = false)
    (hlast : 0 + 1 = l.length) :
    sweepAux w l 1 = (l.dropLast, false) := by
  rw [sweepAux_step]; simp [sweepStep, hg, hr, hlast]

/-- Loop equation: a non-recording last span at `idx = m > 0` is popped and
`idx` decrements. -/
theorem sweepAux_eq_last (w : World) (l : List SpanId) (m : Nat) (s : SpanId)
    (hg : l[m]? = some s) (hr : is_recording w s = false)
    (hlast : m + 1 = l.length) (hm0 : m ≠ 0) :
    sweepAux w l (m + 1) = sweepAux w l.dropLast m := by
  rw [sweepAux_step]; simp [sweepStep, hg, hr, hlast, hm0]

/-- Loop equation: a non-recording interior span at `idx = m` is replaced
by the last element, which is popped; `idx` is re-examined. -/
theorem sweepAux_eq_swap (w : World) (l : List SpanId) (m : Nat) (s : SpanId)
    (hg : l[m]? = some s) (hr : is_recording w s = false)
    (hlast : m + 1 ≠ l.length) :
    sweepAux w l (m + 1) =
      sweepAux w ((l.set m (l.getLast?.getD s)).dropLast) (m + 1) := by
  rw [sweepAux_step]; simp [sweepStep, hg, hr, hlast]

/-- Correctness invariant of the `_remove_nonrecording` loop, entered at
counter `n` (`idx = n - 1`) with every span at a position `≥ n` already
known recording: the final list is a permutation of the recording spans of
the entry list, and (when entered with `n ≥ 1`) the returned boolean is
`False` exactly when the final list is empty. -/
theorem sweepAux_spec (w : World) :
    ∀ (k : Nat) (l : List SpanId) (n : Nat), n + l.length ≤ k →
      n ≤ l.length →
      (∀ s ∈ l.drop n, is_recording w s = true) →
      ((sweepAux w l n).1.Perm (l.filter (is_recording w)) ∧
        (1 ≤ n →
          ((sweepAux w l n).2 = true → (sweepAux w l n).1 ≠ []) ∧
          ((sweepAux w l n).2 = false → (sweepAux w l n).1 = []))) := by
  intro k
  induction k using Nat.strong_induction_on with
  | _ k ih =>
    intro l n hk hn hrec
    match n with
    | 0 =>
      rw [sweepAux_zero]
      refine ⟨?_, by omega⟩
      have hall : l.filter (is_recording w) = l :=
        List.filter_eq_self.mpr (by simpa using hrec)
      rw [hall]
    | m + 1 =>
      have hm : m < l.length := by omega
      have hg : l[m]? = some l[m] := List.getElem?_eq_getElem hm
      have hdrop : l.drop m = l[m] :: l.drop (m + 1) :=
        List.drop_eq_getElem_cons hm
      by_cases hr : is_recording w l[m]
      · -- recording: idx decrements
        rw [sweepAux_eq_rec w l m l[m] hg hr]
        have hrec' : ∀ s ∈ l.drop m, is_recording w s = true := by
          intro s hs
          rw [hdrop] at hs
          rcases List.mem_cons.mp hs with h | h
          · rw [h]; exact hr
          · exact hrec s h
        have IH := ih (k - 1) (by omega) l m (by omega) (by omega) hrec'
        refine ⟨IH.1, fun _ => ?_⟩
        rcases Nat.eq_zero_or_pos m with rfl | hm1
        · rw [sweepAux_zero]
          constructor
          · intro _
            have hl : l ≠ [] :=
              List.ne_nil_of_length_pos (show 0 < l.length by omega)
            simpa using hl
          · intro h; simp at h
        · exact IH.2 (by omega)
      · -- not recording
        have hrb : is_recording w l[m] = false := by
          simpa using hr
        by_cases hlast : m + 1 = l.length
        · rcases Nat.eq_zero_or_pos m with rfl | hm1
          · -- removed the single remaining element: return False
            rw [sweepAux_eq_last_zero w l l[0] hg hrb hlast]
            obtain ⟨a, rfl⟩ := List.length_eq_one.mp hlast.symm
            refine ⟨?_, fun _ => ⟨fun h => by simp at h, fun _ => by simp⟩⟩
            simp only [List.getElem_cons_zero] at hrb
            simp [List.filter, hrb]
          · rw [sweepAux_eq_last w l m l[m] hg hrb hlast (by omega)]
            have hlD : l.dropLast.length = l.length - 1 := by simp
            have hrec' : ∀ s ∈ l.dropLast.drop m,
                is_recording w s = true := by
              intro s hs
              have : l.dropLast.drop m = [] :=
                List.drop_eq_nil_of_le (by omega)
              rw [this] at hs
              simp at hs
            have IH := ih (k - 1) (by omega) l.dropLast m (by omega)
              (by omega) hrec'
            have hne : l ≠ [] := List.ne_nil_of_length_pos (by omega)
            have hlastval : l.getLast hne = l[m] := by
              rw [List.getLast_eq_getElem]
              congr 1
              omega
            have hfl : l.filter (is_recording w) =
                l.dropLast.filter (is_recording w) := by
              conv_lhs => rw [← List.dropLast_append_getLast hne]
              rw [List.filter_append, hlastval]
              simp [List.filter, hrb]
            rw [hfl]
            exact ⟨IH.1, fun _ => IH.2 (by omega)⟩
        · -- interior removal: swap with last and pop, re-examine idx
          have hlt : m + 1 < l.length := by omega
          have hne : l ≠ [] := List.ne_nil_of_length_pos (by omega)
          rw [sweepAux_eq_swap w l m l[m] hg hrb hlast]
          set z := l.getLast hne with hz
          have hgetD : l.getLast?.getD l[m] = z := by
            rw [List.getLast?_eq_getLast_of_ne_nil hne]
            rfl
          have hmD : m < l.dropLast.length := by simp; omega
          have hset : (l.set m (l.getLast?.getD l[m])).dropLast =
              l.dropLast.set m z := by
            rw [hgetD]
            conv_lhs => rw [← List.dropLast_append_getLast hne]
            rw [List.set_append_left _ _ hmD, List.dropLast_concat]
          rw [hset]
          -- decompose D := l.dropLast around position m
          have hD1 : l.dropLast.set m z =
              l.dropLast.take m ++ z :: l.dropLast.drop (m + 1) :=
            List.set_eq_take_cons_drop z hmD
          have hD2 : l.dropLast =
              l.dropLast.take m ++ l[m] :: l.dropLast.drop (m + 1) := by
            conv_lhs => rw [← List.take_append_drop m l.dropLast]
            rw [List.drop_eq_getElem_cons hmD, List.getElem_dropLast l m hmD]
          have hlset : (l.dropLast.set m z).length = l.length - 1 := by simp
          have htake : (l.dropLast.take m).length = m := by
            simp
            omega
          have hdropD : (l.dropLast.set m z).drop (m + 1) =
              l.dropLast.drop (m + 1) := by
            rw [hD1]
            rw [show l.dropLast.take m ++ z :: l.dropLast.drop (m + 1) =
              (l.dropLast.take m ++ [z]) ++ l.dropLast.drop (m + 1) by simp]
            rw [List.drop_left' (by simp [htake])]
          have hrec' : ∀ s ∈ (l.dropLast.set m z).drop (m + 1),
              is_recording w s = true := by
            intro s hs
            rw [hdropD] at hs
            have hsub : (l.dropLast.drop (m + 1)).Sublist (l.drop (m + 1)) := by
              conv_rhs => rw [← List.dropLast_append_getLast hne]
              rw [List.drop_append_of_le_length (by omega)]
              exact List.sublist_append_left _ _
            exact hrec s (hsub.mem hs)
          have IH := ih (k - 1) (by omega) (l.dropLast.set m z) (m + 1)
            (by omega) (by omega) hrec'
          -- the filtered entry list is a permutation of the filtered new list
          have hflperm : (l.filter (is_recording w)).Perm
              ((l.dropLast.set m z).filter (is_recording w)) := by
            conv_lhs => rw [← List.dropLast_append_getLast hne]
            rw [hD1]
            conv_lhs => rw [hD2]
            rw [show (l.dropLast.take m ++ l[m] :: l.dropLast.drop (m + 1)) ++
                [z] = l.dropLast.take m ++
                ([l[m]] ++ (l.dropLast.drop (m + 1) ++ [z])) by simp]
            rw [show l.dropLast.take m ++ z :: l.dropLast.drop (m + 1) =
                l.dropLast.take m ++
                ([z] ++ l.dropLast.drop (m + 1)) by simp]
            rw [List.filter_append, List.filter_append, List.filter_append,
              List.filter_append]
            refine List.Perm.append_left _ ?_
            rw [show ([l[m]].filter (is_recording w)) = [] by
              simp [List.filter, hrb]]
            rw [List.filter_append]
            simp only [List.nil_append]
            exact List.perm_append_comm
          exact ⟨IH.1.trans hflperm.symm, fun _ => IH.2 (by omega)⟩

/-- Loop equation: counter beyond the list (unreachable from the real
entry point) exits the loop. -/
theorem sweepAux_eq_oob (w : World) (l : List SpanId) (m : Nat)
    (hg : l[m]? = none) : sweepAux w l (m + 1) = (l, true) := by
  rw [sweepAux_step]; simp [sweepStep, hg]

/-- The final list of `_remove_nonrecording` is a permutation of the
recording spans of the entry list. -/
theorem remove_nonrecording_perm (w : World) (l : List SpanId) :
    ((_remove_nonrecording w l).1).Perm (l.filter (is_recording w)) :=
  (sweepAux_spec w (l.length + l.length) l l.length (by omega) (le_refl _)
    (by simp)).1

/-- Every span surviving the sweep is recording. -/
theorem remove_nonrecording_mem_rec (w : World) (l : List SpanId)
    (s : SpanId) (hs : s ∈ (_remove_nonrecording w l).1) :
    is_recording w s = true :=
  List.of_mem_filter ((remove_nonrecording_perm w l).mem_iff.mp hs)

/-- For a non-empty entry list, `_remove_nonrecording` returns `False`
exactly when it emptied the list. -/
theorem remove_nonrecording_false_iff (w : World) (l : List SpanId)
    (h : l ≠ []) :
    ((_remove_nonrecording w l).2 = false ↔
      (_remove_nonrecording w l).1 = []) := by
  have hp : 0 < l.length := List.length_pos.mpr h
  have h2 := (sweepAux_spec w (l.length + l.length) l l.length (by omega)
    (le_refl _) (by simp)).2 (by omega)
  constructor
  · exact h2.2
  · intro he
    by_contra hb
    have ht : (_remove_nonrecording w l).2 = true := by
      cases hx : (_remove_nonrecording w l).2
      · exact absurd hx hb
      · rfl
    exact absurd he (h2.1 ht)

/-- The sweep does not touch a list whose spans are all recording. -/
theorem sweepAux_all_rec (w : World) (l : List SpanId)
    (h : ∀ s ∈ l, is_recording w s = true) :
    ∀ n, sweepAux w l n = (l, true) := by
  intro n
  induction n with
  | zero => exact sweepAux_zero w l
  | succ m ihm =>
    cases hg : l[m]? with
    | none => exact sweepAux_eq_oob w l m hg
    | some s =>
      have hmem : s ∈ l := by
        rcases List.getElem?_eq_some.mp hg with ⟨hlt, hv⟩
        rw [← hv]
        exact List.getElem_mem hlt
      rw [sweepAux_eq_rec w l m s hg (h s hmem)]
      exact ihm

/-- `_remove_nonrecording` is the identity (returning `True`) on a list of
recording spans. -/
theorem remove_nonrecording_all_rec (w : World) (l : List SpanId)
    (h : ∀ s ∈ l, is_recording w s = true) :
    _remove_nonrecording w l = (l, true) :=
  sweepAux_all_rec w l h l.length

/-- `set_attribute` never changes any recording flag. -/
theorem set_attribute_recording (w : World) (s : SpanId) (k v : String)
    (t : SpanId) : (set_attribute w s k v t).recording = (w t).recording := by
  unfold set_attribute
  by_cases h : t = s <;> simp [h]

/-- Setting an attribute makes it the current value for its key. -/
theorem get_attribute_set_self (w : World) (s : SpanId) (k v : String) :
    get_attribute (set_attribute w s k v) s k = some v := by
  simp [get_attribute, set_attribute]

/-- Setting an attribute on another span leaves a span's lookups alone. -/
theorem get_attribute_set_other (w : World) (s : SpanId) (k v : String)
    (t : SpanId) (k2 : String) (h : t ≠ s) :
    get_attribute (set_attribute w s k v) t k2 = get_attribute w t k2 := by
  simp [get_attribute, set_attribute, h]

/-- The stamping loop never changes any recording flag. -/
theorem stampWorld_recording (ip : String) :
    ∀ (l : List SpanId) (w : World) (t : SpanId),
      (stampWorld w ip l t).recording = (w t).recording := by
  intro l
  induction l with
  | nil => intro w t; rfl
  | cons x xs ihl =>
    intro w t
    show (stampWorld (set_attribute w x NET_PEER_IP ip) ip xs t).recording = _
    rw [ihl, set_attribute_recording]

/-- After the stamping loop, every span of the list (and every span that
already carried the value) reads back the stamped IP. -/
theorem get_attribute_stampWorld (ip : String) :
    ∀ (l : List SpanId) (w : World) (s : SpanId),
      (s ∈ l ∨ get_attribute w s NET_PEER_IP = some ip) →
      get_attribute (stampWorld w ip l) s NET_PEER_IP = some ip := by
  intro l
  induction l with
  | nil =>
    intro w s h
    rcases h with h | h
    · simp at h
    · exact h
  | cons x xs ihl =>
    intro w s h
    show get_attribute (stampWorld (set_attribute w x NET_PEER_IP ip) ip xs) s
        NET_PEER_IP = some ip
    apply ihl
    by_cases hsx : s = x
    · subst hsx
      exact Or.inr (get_attribute_set_self w s NET_PEER_IP ip)
    · rcases h with h | h
      · rcases List.mem_cons.mp h with h | h
        · exact absurd h hsx
        · exact Or.inl h
      · exact Or.inr ((get_attribute_set_other w x NET_PEER_IP ip s
          NET_PEER_IP hsx).trans h)

/-- With `ip` bound, the stamping loop succeeds and its effect is
`stampWorld`. -/
theorem stampAll_some (ip : String) :
    ∀ (l : List SpanId) (w : World),
      stampAll (some ip) w l = .ok (stampWorld w ip l) := by
  intro l
  induction l with
  | nil => intro w; rfl
  | cons x xs ihl => intro w; exact ihl (set_attribute w x NET_PEER_IP ip)

/-- With `ip` unbound, the stamping loop raises on any non-empty list. -/
theorem stampAll_none (l : List SpanId) (w : World) (h : l ≠ []) :
    stampAll none w l = .error () := by
  cases l with
  | nil => exact absurd rfl h
  | cons x xs => rfl

/-- `trysetip` with no `ConnectionState` in context: immediate `True`. -/
theorem trysetip_no_state (conn : Conn) (lvl : Nat) (w : World) :
    trysetip conn lvl w none = ⟨w, none, [], false, .ok true⟩ := rfl

/-- `trysetip` with an empty span list: immediate `True`. -/
theorem trysetip_empty_list (conn : Conn) (lvl : Nat) (w : World)
    (st : ConnectionState) (h : st.need_ip = []) :
    trysetip conn lvl w (some st) = ⟨w, some st, [], false, .ok true⟩ := by
  simp [trysetip, h]

/-- `trysetip` on the happy path (spans survive the sweep, live socket,
truthy peer address): it stamps every surviving span and returns `True`. -/
theorem trysetip_success_eq (conn : Conn) (lvl : Nat) (w : World)
    (st : ConnectionState) (sock : Socket) (addr : List String)
    (l1 : List SpanId)
    (hne : st.need_ip ≠ [])
    (hsweep : _remove_nonrecording w st.need_ip = (l1, true))
    (hsock : conn.sock = .ok (some sock))
    (haddr : sock.getpeername = .ok addr)
    (h0 : addr ≠ []) (h1 : addr.headD "" ≠ "") :
    trysetip conn lvl w (some st) =
      ⟨stampWorld w (addr.headD "") l1, some ⟨l1⟩, [.debugGotSocket], true,
        .ok true⟩ := by
  have hemp : st.need_ip.isEmpty = false := by
    simpa [List.isEmpty_iff] using hne
  have h1b : ¬ addr.head?.getD "" = "" := by
    simpa [List.headD_eq_head?_getD] using h1
  simp [trysetip, hemp, hsweep, hsock, haddr, h0, h1]
  rw [if_neg h1b, stampAll_some]

/-- `trysetip` at the peer-address stage: spans survived the sweep, the
socket is live and `getpeername()` succeeded; the outcome depends only on
the stamping loop (whose `ip` is bound iff the address is truthy). -/
theorem trysetip_sock_eq (conn : Conn) (lvl : Nat) (w : World)
    (st : ConnectionState) (sock : Socket) (addr : List String)
    (l1 : List SpanId)
    (hne : st.need_ip ≠ [])
    (hsweep : _remove_nonrecording w st.need_ip = (l1, true))
    (hsock : conn.sock = .ok (some sock))
    (haddr : sock.getpeername = .ok addr) :
    trysetip conn lvl w (some st) =
      match stampAll (if addr ≠ [] ∧ addr.headD "" ≠ ""
          then some (addr.headD "") else none) w l1 with
      | .ok w2 => ⟨w2, some ⟨l1⟩, [.debugGotSocket], true, .ok true⟩
      | .error _ => ⟨w, some ⟨l1⟩, [.debugGotSocket], true, .error ()⟩ := by
  have hemp : st.need_ip.isEmpty = false := by
    simpa [List.isEmpty_iff] using hne
  simp [trysetip, hemp, hsweep, hsock, haddr]

/-- `removeFirst` on a list not containing the element is the identity
(the `ValueError` branch). -/
theorem removeFirst_of_not_mem (s : SpanId) :
    ∀ (l : List SpanId), s ∉ l → removeFirst l s = l := by
  intro l
  induction l with
  | nil => intro _; rfl
  | cons x xs ihl =>
    intro h
    have hx : x ≠ s := fun he => h (by rw [he]; exact List.mem_cons_self _ _)
    have hs : s ∉ xs := fun hm => h (List.mem_cons_of_mem _ hm)
    simp [removeFirst, hx, ihl hs]

/-- If the element occurs at most once, `removeFirst` eliminates it. -/
theorem removeFirst_not_mem_of_count_le_one (s : SpanId) :
    ∀ (l : List SpanId), l.count s ≤ 1 → s ∉ removeFirst l s := by
  intro l
  induction l with
  | nil => intro _ h; simp [removeFirst] at h
  | cons x xs ihl =>
    intro hc
    by_cases hx : x = s
    · subst hx
      rw [List.count_cons_self] at hc
      have h0 : xs.count x = 0 := by omega
      simp only [removeFirst, if_pos rfl]
      exact List.count_eq_zero.mp h0
    · have hxs : (x :: xs).count s = xs.count s := by
        rw [List.count_cons_of_ne (fun he => hx he.symm)]
      rw [hxs] at hc
      simp only [removeFirst, if_neg hx]
      intro hm
      rcases List.mem_cons.mp hm with h | h
      · exact hx h.symm
      · exact ihl hc h

/-- Claim C1 (refuted — code bug): the claim states that `trysetip` always
returns a boolean and never propagates an exception, for every outcome of
the peer-address query including a successful query returning an empty or
falsy address. The code violates this: when `getpeername()` succeeds but
the address is falsy (here `("",)`, e.g. an unnamed `AF_UNIX` socket, with
one recording span waiting), the guard `if addr and addr[0]` skips the
assignment of the local `ip`, and the stamping loop in the `try`'s `else`
clause — outside the `except` — reads the unbound `ip` and raises
`UnboundLocalError`, which propagates to the caller instead of returning a
boolean; no severity-level log is emitted either. This theorem evaluates
the embedded code at that failing input. -/
theorem c1_unbound_ip_exception :
    (trysetip connEmptyAddr DEBUG w0 (some ⟨[0]⟩)).ret = .error () ∧
    (trysetip connEmptyAddr DEBUG w0 (some ⟨[0]⟩)).logs =
      [.debugGotSocket] := ⟨rfl, rfl⟩

/-- Claim C2: `_remove_nonrecording` removes exactly the non-recording
spans — the survivors are, as a multiset, the recording spans of the input
(order not preserved, swap-with-last-and-pop) — and on a non-empty input
it returns `False` iff the resulting list is empty; in that emptied case
`trysetip` returns `True` without stamping anything (span heap
untouched). -/
theorem c2_sweep_multiset (w : World) (l : List SpanId) :
    ((_remove_nonrecording w l).1 : Multiset SpanId) =
      ((l.filter (is_recording w) : List SpanId) : Multiset SpanId) ∧
    (l ≠ [] →
      ((_remove_nonrecording w l).2 = false ↔
        (_remove_nonrecording w l).1 = [])) ∧
    (∀ (conn : Conn) (lvl : Nat) (st : ConnectionState), st.need_ip = l →
      l ≠ [] → (_remove_nonrecording w l).2 = false →
      trysetip conn lvl w (some st) =
        ⟨w, some ⟨(_remove_nonrecording w l).1⟩, [], false, .ok true⟩) := by
  refine ⟨Multiset.coe_eq_coe.mpr (remove_nonrecording_perm w l),
    remove_nonrecording_false_iff w l, ?_⟩
  intro conn lvl st hst hne hfalse
  subst hst
  have hemp : st.need_ip.isEmpty = false := by
    simpa [List.isEmpty_iff] using hne
  rcases hrm : _remove_nonrecording w st.need_ip with ⟨l1, b⟩
  rw [hrm] at hfalse
  have hb : b = false := hfalse
  subst hb
  simp [trysetip, hemp, hrm]

/-- Witness for C2 on a concrete list: span `0` recording, span `1` not;
the sweep keeps exactly `[0]` and returns `True`. -/
theorem c2_sweep_multiset_witness :
    ((_remove_nonrecording w0 [0, 1]).1 : Multiset SpanId) =
      ((([0, 1] : List SpanId).filter (is_recording w0) :
        List SpanId) : Multiset SpanId) ∧
    ((_remove_nonrecording w0 [0, 1]).2 = false ↔
      (_remove_nonrecording w0 [0, 1]).1 = []) :=
  ⟨(c2_sweep_multiset w0 [0, 1]).1,
    (c2_sweep_multiset w0 [0, 1]).2.1 (by decide)⟩

/-- Claim C7: with no `ConnectionState`, or an empty span list, `trysetip`
returns `True` while leaving the span heap and state untouched, emitting
no log and never reading `conn.sock`; hence calling it twice in that
situation is a no-op both times. -/
theorem c7_trysetip_idempotent_noop (conn : Conn) (lvl : Nat) (w : World)
    (state : Option ConnectionState)
    (h : state = none ∨ ∃ st, state = some st ∧ st.need_ip = []) :
    trysetip conn lvl w state = ⟨w, state, [], false, .ok true⟩ ∧
    trysetip conn lvl (trysetip conn lvl w state).world
        (trysetip conn lvl w state).state =
      ⟨w, state, [], false, .ok true⟩ := by
  rcases h with rfl | ⟨st, rfl, hemp⟩
  · exact ⟨rfl, rfl⟩
  · have h1 := trysetip_empty_list conn lvl w st hemp
    refine ⟨h1, ?_⟩
    rw [h1]
    exact h1

/-- Witness for C7 at a concrete empty-state input. -/
theorem c7_trysetip_idempotent_noop_witness :
    trysetip connOk DEBUG w0 none = ⟨w0, none, [], false, .ok true⟩ ∧
    trysetip connOk DEBUG (trysetip connOk DEBUG w0 none).world
        (trysetip connOk DEBUG w0 none).state =
      ⟨w0, none, [], false, .ok true⟩ :=
  c7_trysetip_idempotent_noop connOk DEBUG w0 none (Or.inl rfl)

/-- Claim C3: `trysetip` returns `False` exactly when a `ConnectionState`
is present, its span list still holds a recording span after the sweep,
and the connection's socket reference is `None`; and with no state or an
empty list it returns `True` without touching the connection handle. -/
theorem c3_trysetip_false_iff (conn : Conn) (lvl : Nat) (w : World)
    (state : Option ConnectionState) :
    ((trysetip conn lvl w state).ret = .ok false ↔
      ∃ st, state = some st ∧ st.need_ip ≠ [] ∧
        (∃ s ∈ (_remove_nonrecording w st.need_ip).1,
          is_recording w s = true) ∧
        conn.sock = .ok none) ∧
    ((state = none ∨ ∃ st, state = some st ∧ st.need_ip = []) →
      (trysetip conn lvl w state).ret = .ok true ∧
      (trysetip conn lvl w state).sockAccessed = false) := by
  constructor
  · constructor
    · -- forward: walk the branches of trysetip
      intro h
      match state with
      | none => rw [trysetip_no_state] at h; exact absurd h (by simp)
      | some st =>
        by_cases hemp : st.need_ip.isEmpty
        · rw [trysetip_empty_list conn lvl w st
            (List.isEmpty_iff.mp hemp)] at h
          exact absurd h (by simp)
        · have hne : st.need_ip ≠ [] := by
            intro hc; exact hemp (by simp [hc])
          have hempf : st.need_ip.isEmpty = false := by
            simpa [List.isEmpty_iff] using hne
          rcases hrm : _remove_nonrecording w st.need_ip with ⟨l1, b⟩
          cases b with
          | false => simp [trysetip, hempf, hrm] at h
          | true =>
            cases hsock : conn.sock with
            | error e => simp [trysetip, hempf, hrm, hsock] at h
            | ok osock =>
              cases osock with
              | none =>
                refine ⟨st, rfl, hne, ?_, rfl⟩
                have hl1 : l1 ≠ [] := by
                  intro hc
                  have hf := (remove_nonrecording_false_iff w st.need_ip
                    hne).mpr (by rw [hrm, hc])
                  rw [hrm] at hf
                  simp at hf
                obtain ⟨s, hs⟩ := List.exists_mem_of_ne_nil l1 hl1
                refine ⟨s, by rw [hrm]; exact hs, ?_⟩
                exact remove_nonrecording_mem_rec w st.need_ip s
                  (by rw [hrm]; exact hs)
              | some sock =>
                cases hgp : sock.getpeername with
                | error e =>
                  simp [trysetip, hempf, hrm, hsock, hgp] at h
                | ok addr =>
                  rw [trysetip_sock_eq conn lvl w st sock addr l1 hne hrm
                    hsock hgp] at h
                  cases hsa : stampAll (if addr ≠ [] ∧ addr.headD "" ≠ ""
                      then some (addr.headD "") else none) w l1 with
                  | ok w2 => rw [hsa] at h; simp at h
                  | error e => rw [hsa] at h; simp at h
    · -- backward: the not-yet-connected branch indeed returns False
      rintro ⟨st, rfl, hne, ⟨s, hs, _⟩, hsock⟩
      have hempf : st.need_ip.isEmpty = false := by
        simpa [List.isEmpty_iff] using hne
      rcases hrm : _remove_nonrecording w st.need_ip with ⟨l1, b⟩
      rw [hrm] at hs
      have hl1 : l1 ≠ [] := fun hc => by rw [hc] at hs; simp at hs
      have hb : b = true := by
        cases hbv : b with
        | true => rfl
        | false =>
          have hf := (remove_nonrecording_false_iff w st.need_ip hne).mp
            (by rw [hrm, hbv])
          rw [hrm] at hf
          exact absurd hf hl1
      subst hb
      simp [trysetip, hempf, hrm, hsock]
  · -- no state or empty list: True, connection untouched
    rintro (rfl | ⟨st, rfl, hemp⟩)
    · exact ⟨rfl, rfl⟩
    · rw [trysetip_empty_list conn lvl w st hemp]
      exact ⟨rfl, rfl⟩

/-- Witness for C3: with a waiting recording span and `sock` still `None`,
`trysetip` returns `False`; with no state it returns `True` without
reading the socket. -/
theorem c3_trysetip_false_iff_witness :
    (trysetip connNoSock DEBUG w0 (some ⟨[0]⟩)).ret = .ok false ∧
    (trysetip connNoSock DEBUG w0 none).ret = .ok true ∧
    (trysetip connNoSock DEBUG w0 none).sockAccessed = false :=
  ⟨(c3_trysetip_false_iff connNoSock DEBUG w0 (some ⟨[0]⟩)).1.mpr
      ⟨⟨[0]⟩, rfl, by decide, ⟨0, by decide, by decide⟩, rfl⟩,
    (c3_trysetip_false_iff connNoSock DEBUG w0 none).2 (Or.inl rfl)⟩

/-- Claim C4: when the socket is live and `getpeername()` returns an
address with a non-empty first element, `trysetip` stamps `NET_PEER_IP`
with that element on every span that survived the sweep and returns
`True`. -/
theorem c4_trysetip_stamps (conn : Conn) (lvl : Nat) (w : World)
    (st : ConnectionState) (sock : Socket) (addr : List String)
    (l1 : List SpanId)
    (hne : st.need_ip ≠ [])
    (hsweep : _remove_nonrecording w st.need_ip = (l1, true))
    (hsock : conn.sock = .ok (some sock))
    (haddr : sock.getpeername = .ok addr)
    (h0 : addr ≠ []) (h1 : addr.headD "" ≠ "") :
    (trysetip conn lvl w (some st)).ret = .ok true ∧
    (trysetip conn lvl w (some st)).state = some ⟨l1⟩ ∧
    ∀ s ∈ l1, get_attribute (trysetip conn lvl w (some st)).world s
      NET_PEER_IP = some (addr.headD "") := by
  have heq := trysetip_success_eq conn lvl w st sock addr l1 hne hsweep
    hsock haddr h0 h1
  rw [heq]
  exact ⟨rfl, rfl, fun s hs =>
    get_attribute_stampWorld (addr.headD "") l1 w s (Or.inl hs)⟩

/-- Witness for C4 at a concrete connected socket with peer
`("10.0.0.5", "443")`. -/
theorem c4_trysetip_stamps_witness :
    (trysetip connOk DEBUG w0 (some ⟨[0]⟩)).ret = .ok true ∧
    (trysetip connOk DEBUG w0 (some ⟨[0]⟩)).state = some ⟨[0]⟩ ∧
    get_attribute (trysetip connOk DEBUG w0 (some ⟨[0]⟩)).world 0
      NET_PEER_IP = some "10.0.0.5" := by
  have h := c4_trysetip_stamps connOk DEBUG w0 ⟨[0]⟩ sockOk
    ["10.0.0.5", "443"] [0] (by simp) rfl rfl rfl (by simp) (by simp)
  exact ⟨h.1, h.2.1, h.2.2 0 (by simp)⟩

/-- Claim C9: a successful capture does not clear the span list — after
stamping, the state still holds exactly the surviving spans — so a second
`trysetip` on the same state finds them again (they are still recording),
stamps them again with the same IP and returns `True`. -/
theorem c9_capture_keeps_list (conn : Conn) (lvl : Nat) (w : World)
    (st : ConnectionState) (sock : Socket) (addr : List String)
    (l1 : List SpanId)
    (hne : st.need_ip ≠ [])
    (hsweep : _remove_nonrecording w st.need_ip = (l1, true))
    (hsock : conn.sock = .ok (some sock))
    (haddr : sock.getpeername = .ok addr)
    (h0 : addr ≠ []) (h1 : addr.headD "" ≠ "") :
    (trysetip conn lvl w (some st)).state = some ⟨l1⟩ ∧
    (trysetip conn lvl (trysetip conn lvl w (some st)).world
        (trysetip conn lvl w (some st)).state).state = some ⟨l1⟩ ∧
    (trysetip conn lvl (trysetip conn lvl w (some st)).world
        (trysetip conn lvl w (some st)).state).ret = .ok true ∧
    ∀ s ∈ l1, get_attribute
      (trysetip conn lvl (trysetip conn lvl w (some st)).world
        (trysetip conn lvl w (some st)).state).world s NET_PEER_IP =
      some (addr.headD "") := by
  have heq := trysetip_success_eq conn lvl w st sock addr l1 hne hsweep
    hsock haddr h0 h1
  rw [heq]
  -- the second call runs on the stamped heap with the same list
  have hl1 : l1 ≠ [] := by
    intro hc
    have hf := (remove_nonrecording_false_iff w st.need_ip hne).mpr
      (by rw [hsweep, hc])
    rw [hsweep] at hf
    simp at hf
  have hrec1 : ∀ s ∈ l1, is_recording (stampWorld w (addr.headD "") l1) s
      = true := by
    intro s hs
    have hr : is_recording w s = true :=
      remove_nonrecording_mem_rec w st.need_ip s (by rw [hsweep]; exact hs)
    unfold is_recording at hr ⊢
    rw [stampWorld_recording]
    exact hr
  have hsweep2 : _remove_nonrecording (stampWorld w (addr.headD "") l1) l1
      = (l1, true) :=
    remove_nonrecording_all_rec (stampWorld w (addr.headD "") l1) l1 hrec1
  have heq2 := trysetip_success_eq conn lvl
    (stampWorld w (addr.headD "") l1) ⟨l1⟩ sock addr l1 hl1 hsweep2
    hsock haddr h0 h1
  rw [heq2]
  refine ⟨rfl, rfl, rfl, fun s hs => ?_⟩
  exact get_attribute_stampWorld (addr.headD "") l1 _ s (Or.inl hs)

/-- Witness for C9 at the concrete connected socket: the list `[0]` is
still in place after capture and a second capture behaves identically. -/
theorem c9_capture_keeps_list_witness :
    (trysetip connOk DEBUG w0 (some ⟨[0]⟩)).state = some ⟨[0]⟩ ∧
    (trysetip connOk DEBUG (trysetip connOk DEBUG w0 (some ⟨[0]⟩)).world
        (trysetip connOk DEBUG w0 (some ⟨[0]⟩)).state).state =
      some ⟨[0]⟩ ∧
    (trysetip connOk DEBUG (trysetip connOk DEBUG w0 (some ⟨[0]⟩)).world
        (trysetip connOk DEBUG w0 (some ⟨[0]⟩)).state).ret = .ok true := by
  have h := c9_capture_keeps_list connOk DEBUG w0 ⟨[0]⟩ sockOk
    ["10.0.0.5", "443"] [0] (by simp) rfl rfl rfl (by simp) (by simp)
  exact ⟨h.1, h.2.1, h.2.2.1⟩

/-- Claim C5: on every exit path of `set_ip_on_next_http_connection`
(the cleanup is a `finally`, so it is the same for a normal return and an
exception), the span is no longer a member of the `ConnectionState` list
reachable from the resulting ambient context: if the scope created the
state, its detach restores the prior context (dropping the attached
state); otherwise it removes the span from the shared list — and removing
an already-evicted span is tolerated silently (the list is simply left as
the body produced it). `body` is the net mutation the wrapped code applies
to the shared list; the count hypothesis states that the span was not
independently registered a second time (the §3 invariant). -/
theorem c5_scope_exit_removes (span : SpanId) (ctx : Ctx)
    (body : List SpanId → List SpanId) :
    (ctx = none → set_ip_on_next_http_connection span ctx body = none) ∧
    (∀ st, ctx = some st →
      ((body (st.need_ip ++ [span])).count span ≤ 1 →
        ∀ st2, set_ip_on_next_http_connection span ctx body = some st2 →
          span ∉ st2.need_ip) ∧
      (span ∉ body (st.need_ip ++ [span]) →
        set_ip_on_next_http_connection span ctx body =
          some ⟨body (st.need_ip ++ [span])⟩)) := by
  constructor
  · rintro rfl
    rfl
  · rintro st rfl
    constructor
    · intro hcount st2 hst2
      have : st2 = ⟨removeFirst (body (st.need_ip ++ [span])) span⟩ := by
        injection hst2 with h
        exact h.symm
      rw [this]
      exact removeFirst_not_mem_of_count_le_one span _ hcount
    · intro habs
      show some (ConnectionState.mk
          (removeFirst (body (st.need_ip ++ [span])) span)) =
        some (ConnectionState.mk (body (st.need_ip ++ [span])))
      rw [removeFirst_of_not_mem span _ habs]

/-- Witness for C5: a scope over an existing state `{need_ip: [1]}` with an
identity body removes span `0` again (count condition holds), and its
tolerant removal leaves `[1]` when `0` was already evicted. -/
theorem c5_scope_exit_removes_witness :
    (0 : SpanId) ∉
      (ConnectionState.need_ip
        ⟨removeFirst (([1] : List SpanId) ++ [0]) 0⟩) ∧
    set_ip_on_next_http_connection 0 (some ⟨[1]⟩)
      (fun l => removeFirst l 0) = some ⟨[1]⟩ := by
  constructor
  · exact ((c5_scope_exit_removes 0 (some ⟨[1]⟩) (fun l => l)).2 ⟨[1]⟩
      rfl).1 (by decide) ⟨removeFirst ([1] ++ [0]) 0⟩ rfl
  · exact ((c5_scope_exit_removes 0 (some ⟨[1]⟩)
      (fun l => removeFirst l 0)).2 ⟨[1]⟩ rfl).2 (by decide)

/-- Claim C8 (spec-modelled `unwrap`): `_uninstrument` after `_instrument`
restores the original `send`/`connect` slots exactly, so every subsequent
call runs the original implementation with the original behavior — no
`trysetip` invocation, no log, no attribute write (the wrapper events are
gone because the method tables are equal). -/
theorem c8_uninstrument_restores (t : Table) (real : RealOp)
    (st : SysState) :
    _uninstrument (_instrument t) = t ∧
    runSend real (_uninstrument (_instrument t)).send st =
      runSend real t.send st ∧
    runConnect real (_uninstrument (_instrument t)).connect st =
      runConnect real t.connect st :=
  ⟨rfl, rfl, rfl⟩

/-- Claim C10: `_remove_nonrecording` terminates on every finite list —
each loop iteration (one `sweepStep` on a running configuration) strictly
decreases the measure `idx + len(spanlist)` (shifted by the constant 2:
the embedded counter is `idx + 1` and running configurations sit above
finished ones), and `sweepAux`, the embedding of the loop entered at
counter `n`, follows exactly these steps. -/
theorem c10_sweep_terminates :
    (∀ (w : World) (l : List SpanId) (n : Nat),
      sweepMeasure (sweepStep w (.running l n)) <
        sweepMeasure (.running l n)) ∧
    (∀ (w : World) (l : List SpanId) (n : Nat),
      sweepAux w l n =
        match sweepStep w (.running l n) with
        | .running l2 n2 => sweepAux w l2 n2
        | .done l2 b => (l2, b)) := by
  refine ⟨?_, fun w l n => sweepAux_step w l n⟩
  intro w l n
  match n with
  | 0 => simp [sweepStep, sweepMeasure]
  | m + 1 =>
    simp only [sweepStep]
    cases hg : l[m]? with
    | none => simp [sweepMeasure]
    | some s =>
      have hm : m < l.length := by
        rcases List.getElem?_eq_some.mp hg with ⟨h, _⟩; exact h
      by_cases hr : is_recording w s
      · simp [hr, sweepMeasure]
      · by_cases hlast : m + 1 = l.length
        · have hl1 : l.length = m + 1 := hlast.symm
          by_cases hm0 : m = 0
          · simp [hr, hm0, hl1, sweepMeasure]
          · simp [hr, hm0, hl1, sweepMeasure]
            omega
        · simp [hr, hlast, sweepMeasure]
          omega

/-- Claim C6: after `install()`, `send` is wrapped so that `trysetip` runs
at default DEBUG severity before the real send, the real send runs, and a
second `trysetip` at WARNING severity runs after it exactly when the
pre-send attempt returned `False`; `connect` is wrapped so that `trysetip`
(at WARNING) runs after the real connect; the real call's result is
returned unchanged. (The hypotheses say the `trysetip` calls return
normally — when one raises, per the C1 bug, the exception propagates
instead.) -/
theorem c6_install_wraps (real : RealOp) (st : SysState) (done b1 b2 : Bool)
    (h1 : (trysetip st.conn DEBUG st.world st.state).ret = .ok done)
    (h2 : (trysetip (postSendState real st).conn WARNING
        (postSendState real st).world (postSendState real st).state).ret =
      .ok b1)
    (h3 : (trysetip (real st.conn).1 WARNING st.world st.state).ret =
      .ok b2) :
    runSend real (_instrument baseTable).send st =
      (if done then
        (postSendState real st, .ok (real st.conn).2,
          [.tryset DEBUG (.ok done), .realSend])
      else
        (applyTry (postSendState real st)
          (trysetip (postSendState real st).conn WARNING
            (postSendState real st).world (postSendState real st).state),
          .ok (real st.conn).2,
          [.tryset DEBUG (.ok done), .realSend,
            .tryset WARNING (.ok b1)])) ∧
    runConnect real (_instrument baseTable).connect st =
      (applyTry { st with conn := (real st.conn).1 }
        (trysetip (real st.conn).1 WARNING st.world st.state),
        .ok (real st.conn).2, [.realConnect, .tryset WARNING (.ok b2)]) := by
  constructor
  · show runSend real (SendImpl.instrumented .base) st = _
    cases done with
    | true => simp [runSend, h1, postSendState, applyTry]
    | false =>
      have h2b : (trysetip (real st.conn).1 WARNING
          (trysetip st.conn DEBUG st.world st.state).world
          (trysetip st.conn DEBUG st.world st.state).state).ret =
          .ok b1 := by
        simpa [postSendState, applyTry] using h2
      simp [runSend, h1, h2b, postSendState, applyTry]
  · show runConnect real (ConnectImpl.instrumentedConnect .base) st = _
    simp [runConnect, h3, applyTry]

/-- Witness for C6 in the empty-state scenario: all three `trysetip` calls
return `True` immediately, the pre-send attempt reports done, and both
wrapped calls return the real result `42`. -/
theorem c6_install_wraps_witness :
    runSend (fun c => (c, 42)) (_instrument baseTable).send
        ⟨connNoSock, w0, none⟩ =
      (postSendState (fun c => (c, 42)) ⟨connNoSock, w0, none⟩,
        .ok 42, [.tryset DEBUG (.ok true), .realSend]) ∧
    runConnect (fun c => (c, 42)) (_instrument baseTable).connect
        ⟨connNoSock, w0, none⟩ =
      (applyTry ⟨connNoSock, w0, none⟩
        (trysetip connNoSock WARNING w0 none),
        .ok 42, [.realConnect, .tryset WARNING (.ok true)]) := by
  have h := c6_install_wraps (fun c => (c, 42)) ⟨connNoSock, w0, none⟩
    true true true rfl rfl rfl
  exact ⟨h.1, h.2⟩

end Httplib
